import Mathlib

/-!
Verification of the `LineEq` utility (src/lineEq.cpp, namespace Tools).

The C++ code is a small value object holding a packed struct
`lineEq_t { slope; y_intercept; min_output; max_output; isVertical }`,
a `create(p1, p2, minOut, maxOut)` method overwriting that struct from two
points, and an `evaluate(x)` method returning the line value clamped to
`[min_output, max_output]`.

We embed the code shallowly over the rationals `ℚ` (exact arithmetic in
place of IEEE `float`); state mutation becomes explicit state passing:
`create` takes the prior `lineEq_t` and returns the new one, mirroring the
C++ method that assigns every field of `_lineEq`.
-/

namespace Tools

/-- The `point_t` struct: a point in 2D space (two `float` fields). -/
structure point_t where
  x : ℚ
  y : ℚ
deriving DecidableEq, Repr

/-- The `lineEq_t` struct: internal representation of a line equation. -/
structure lineEq_t where
  slope : ℚ
  y_intercept : ℚ
  min_output : ℚ
  max_output : ℚ
  isVertical : Bool
deriving DecidableEq, Repr

/-- The tolerance constant `1e-6f` from the vertical-line test
`std::fabs(dx) < 1e-6f` in `LineEq::create`. -/
def EPSILON : ℚ := 1 / 1000000

/-- `LineEq::create` (lineEq.cpp lines 23-42).  The C++ method mutates the
member `_lineEq`; here the prior state `s` is passed explicitly and the new
state is returned.  Every field of the struct is assigned on every path:
`min_output` and `max_output` first, then `isVertical`, `slope` and
`y_intercept` in one of the two branches of the vertical test. -/
def LineEq.create (s : lineEq_t) (p1 p2 : point_t) (minOut maxOut : ℚ) : lineEq_t :=
  let s1 : lineEq_t := { s with min_output := minOut, max_output := maxOut }
  let dx : ℚ := p2.x - p1.x
  let dy : ℚ := p2.y - p1.y
  if |dx| < EPSILON then
    { s1 with isVertical := true, slope := 0, y_intercept := p1.x }
  else
    let m : ℚ := dy / dx
    { s1 with isVertical := false, slope := m, y_intercept := p1.y - m * p1.x }

/-- The unclamped value computed by `LineEq::evaluate` before the output
limits are applied (lineEq.cpp lines 51-59): `slope * x + y_intercept` for a
non-vertical line, the stored `y_intercept` for a vertical one. -/
def LineEq.raw (s : lineEq_t) (x : ℚ) : ℚ :=
  if !s.isVertical then s.slope * x + s.y_intercept else s.y_intercept

/-- `LineEq::evaluate` (lineEq.cpp lines 50-69): compute the raw line value,
then apply the output limits in the fixed order of the source — if
`y < min_output` return `min_output`, else if `y > max_output` return
`max_output`, else return `y`. -/
def LineEq.evaluate (s : lineEq_t) (x : ℚ) : ℚ :=
  let y : ℚ := LineEq.raw s x
  if y < s.min_output then s.min_output
  else if y > s.max_output then s.max_output
  else y

/-- The default member initializer of `_lineEq` (lineEq.h line 135):
`{ 0.0f, 0.0f, 0.0f, 0.0f, false }`. -/
def LineEq.default : lineEq_t :=
  { slope := 0, y_intercept := 0, min_output := 0, max_output := 0, isVertical := false }

/-- The states a `LineEq` object can reach: the default-constructed state,
and any state obtained from a reachable state by a `create` call. -/
inductive LineEq.Reachable : lineEq_t → Prop
  | default : LineEq.Reachable LineEq.default
  | create (s : lineEq_t) (p1 p2 : point_t) (minOut maxOut : ℚ) :
      LineEq.Reachable s → LineEq.Reachable (LineEq.create s p1 p2 minOut maxOut)

end Tools

namespace Tools

/-- Unfolding lemma: when the vertical test `|dx| < EPSILON` fails, `create`
stores `slope = dy/dx`, `y_intercept = p1.y - slope * p1.x`, the bounds, and
clears the vertical flag; no field of the prior state survives. -/
lemma create_nonvertical_eq (s : lineEq_t) (p1 p2 : point_t) (mn mx : ℚ)
    (h : ¬ |p2.x - p1.x| < EPSILON) :
    LineEq.create s p1 p2 mn mx =
      { slope := (p2.y - p1.y) / (p2.x - p1.x),
        y_intercept := p1.y - (p2.y - p1.y) / (p2.x - p1.x) * p1.x,
        min_output := mn, max_output := mx, isVertical := false } := by
  simp only [LineEq.create]
  rw [if_neg h]

/-- Unfolding lemma: when the vertical test `|dx| < EPSILON` succeeds,
`create` stores `slope = 0`, `y_intercept = p1.x`, the bounds, and sets the
vertical flag; no field of the prior state survives. -/
lemma create_vertical_eq (s : lineEq_t) (p1 p2 : point_t) (mn mx : ℚ)
    (h : |p2.x - p1.x| < EPSILON) :
    LineEq.create s p1 p2 mn mx =
      { slope := 0, y_intercept := p1.x,
        min_output := mn, max_output := mx, isVertical := true } := by
  simp only [LineEq.create]
  rw [if_pos h]

/-- When the raw value triggers neither limit check, `evaluate` returns it. -/
lemma evaluate_eq_raw (s : lineEq_t) (x : ℚ)
    (h1 : s.min_output ≤ LineEq.raw s x) (h2 : LineEq.raw s x ≤ s.max_output) :
    LineEq.evaluate s x = LineEq.raw s x := by
  unfold LineEq.evaluate
  rw [if_neg (not_lt.mpr h1), if_neg (not_lt.mpr h2)]

/-- Claim C1: for every configuration with `minOutput <= maxOutput` and every
input `x`, the value returned by `evaluate(x)` satisfies
`minOutput <= evaluate(x) <= maxOutput`. -/
theorem evaluate_clamped (s : lineEq_t) (x : ℚ)
    (h : s.min_output ≤ s.max_output) :
    s.min_output ≤ LineEq.evaluate s x ∧ LineEq.evaluate s x ≤ s.max_output := by
  unfold LineEq.evaluate
  set y := LineEq.raw s x with hy
  by_cases h1 : y < s.min_output
  · simp [h1, h, le_refl]
  · by_cases h2 : y > s.max_output
    · simp [h1, h2, h, le_refl]
    · simp only [h1, h2, if_false]
      exact ⟨le_of_not_lt h1, le_of_not_lt h2⟩

/-- Witness for C1 at a concrete configuration and input. -/
theorem evaluate_clamped_witness :
    (LineEq.default.min_output ≤ LineEq.default.max_output) ∧
    (LineEq.default.min_output ≤ LineEq.evaluate LineEq.default 42 ∧
     LineEq.evaluate LineEq.default 42 ≤ LineEq.default.max_output) :=
  ⟨by decide, evaluate_clamped LineEq.default 42 (by decide)⟩

/-- Claim C2: for a configuration from `p1=(x1,y1)`, `p2=(x2,y2)` with
`|x2-x1| >= 1e-6`, `create` stores `slope = (y2-y1)/(x2-x1)` and
`intercept = y1 - slope*x1`, and for every `x` whose unclamped result lies
within `[minOutput, maxOutput]`, `evaluate(x) = slope*x + intercept`. -/
theorem create_linearity (s : lineEq_t) (x1 y1 x2 y2 mn mx x : ℚ)
    (hdx : EPSILON ≤ |x2 - x1|)
    (hlo : mn ≤ (y2 - y1) / (x2 - x1) * x + (y1 - (y2 - y1) / (x2 - x1) * x1))
    (hhi : (y2 - y1) / (x2 - x1) * x + (y1 - (y2 - y1) / (x2 - x1) * x1) ≤ mx) :
    (LineEq.create s ⟨x1, y1⟩ ⟨x2, y2⟩ mn mx).slope = (y2 - y1) / (x2 - x1) ∧
    (LineEq.create s ⟨x1, y1⟩ ⟨x2, y2⟩ mn mx).y_intercept
      = y1 - (y2 - y1) / (x2 - x1) * x1 ∧
    LineEq.evaluate (LineEq.create s ⟨x1, y1⟩ ⟨x2, y2⟩ mn mx) x
      = (y2 - y1) / (x2 - x1) * x + (y1 - (y2 - y1) / (x2 - x1) * x1) := by
  have hnv : ¬ |(⟨x2, y2⟩ : point_t).x - (⟨x1, y1⟩ : point_t).x| < EPSILON :=
    not_lt.mpr hdx
  rw [create_nonvertical_eq s ⟨x1, y1⟩ ⟨x2, y2⟩ mn mx hnv]
  refine ⟨rfl, rfl, ?_⟩
  have hraw : LineEq.raw
      { slope := (y2 - y1) / (x2 - x1),
        y_intercept := y1 - (y2 - y1) / (x2 - x1) * x1,
        min_output := mn, max_output := mx, isVertical := false } x
      = (y2 - y1) / (x2 - x1) * x + (y1 - (y2 - y1) / (x2 - x1) * x1) := rfl
  rw [evaluate_eq_raw _ _ (by rw [hraw]; exact hlo) (by rw [hraw]; exact hhi), hraw]

/-- Witness for C2: the scenario `configure((1,2),(3,4),-10,10)` of the spec,
evaluated at `x = 2.5` (slope 1, intercept 1, raw value `3.5` in bounds). -/
theorem create_linearity_witness :
    EPSILON ≤ |(3 : ℚ) - 1| ∧
    ((LineEq.create LineEq.default ⟨1, 2⟩ ⟨3, 4⟩ (-10) 10).slope = (4 - 2) / (3 - 1) ∧
     (LineEq.create LineEq.default ⟨1, 2⟩ ⟨3, 4⟩ (-10) 10).y_intercept
       = 2 - (4 - 2) / (3 - 1) * 1 ∧
     LineEq.evaluate (LineEq.create LineEq.default ⟨1, 2⟩ ⟨3, 4⟩ (-10) 10) (5/2)
       = (4 - 2) / (3 - 1) * (5/2) + (2 - (4 - 2) / (3 - 1) * 1)) :=
  ⟨by norm_num [EPSILON],
   create_linearity LineEq.default 1 2 3 4 (-10) 10 (5/2)
     (by norm_num [EPSILON]) (by norm_num) (by norm_num)⟩

/-- Claim C3: `create` classifies the line as vertical exactly when
`|p2.x - p1.x| < 1e-6` (strict), in that case sets `slope = 0` and stores
`p1.x` in the intercept field; a configuration with `|p2.x - p1.x|` exactly
`1e-6` is classified non-vertical. -/
theorem create_vertical_classification (s : lineEq_t) (p1 p2 : point_t) (mn mx : ℚ) :
    ((LineEq.create s p1 p2 mn mx).isVertical = true ↔ |p2.x - p1.x| < EPSILON) ∧
    (|p2.x - p1.x| < EPSILON →
      (LineEq.create s p1 p2 mn mx).slope = 0 ∧
      (LineEq.create s p1 p2 mn mx).y_intercept = p1.x) ∧
    (|p2.x - p1.x| = EPSILON → (LineEq.create s p1 p2 mn mx).isVertical = false) := by
  by_cases h : |p2.x - p1.x| < EPSILON
  · rw [create_vertical_eq s p1 p2 mn mx h]
    exact ⟨by simp [h], fun _ => ⟨rfl, rfl⟩, fun he => absurd (he ▸ h) (lt_irrefl EPSILON)⟩
  · rw [create_nonvertical_eq s p1 p2 mn mx h]
    exact ⟨by simp [h], fun hv => absurd hv h, fun _ => rfl⟩

/-- Claim C4: after a configuration classified vertical (including two
identical points), `evaluate(x)` returns `p1.x` clamped to the output range,
an expression free of `x`: the result does not depend on the input. -/
theorem create_vertical_evaluate_const (s : lineEq_t) (p1 p2 : point_t) (mn mx x : ℚ)
    (h : |p2.x - p1.x| < EPSILON) :
    LineEq.evaluate (LineEq.create s p1 p2 mn mx) x
      = (if p1.x < mn then mn else if p1.x > mx then mx else p1.x) := by
  rw [create_vertical_eq s p1 p2 mn mx h]
  rfl

/-- Witness for C4: the spec scenario `configure((5,1),(5,9),0,100)` (two
points sharing `x = 5`), evaluated at `x = 999`; the result is `5`. -/
theorem create_vertical_evaluate_const_witness :
    |(5 : ℚ) - 5| < EPSILON ∧
    LineEq.evaluate (LineEq.create LineEq.default ⟨5, 1⟩ ⟨5, 9⟩ 0 100) 999
      = (if (5 : ℚ) < 0 then (0 : ℚ) else if (5 : ℚ) > 100 then 100 else 5) :=
  ⟨by norm_num [EPSILON],
   create_vertical_evaluate_const LineEq.default ⟨5, 1⟩ ⟨5, 9⟩ 0 100 999 (by norm_num [EPSILON])⟩

/-- Claim C5: for a non-vertical configuration from `p1=(x1,y1)`,
`p2=(x2,y2)`, `evaluate(x1) = y1` and `evaluate(x2) = y2` (exactly, in the
exact-arithmetic embedding), provided `y1` and `y2` both lie within
`[minOutput, maxOutput]`. -/
theorem create_passthrough (s : lineEq_t) (x1 y1 x2 y2 mn mx : ℚ)
    (hnv : ¬ |x2 - x1| < EPSILON)
    (h1lo : mn ≤ y1) (h1hi : y1 ≤ mx) (h2lo : mn ≤ y2) (h2hi : y2 ≤ mx) :
    LineEq.evaluate (LineEq.create s ⟨x1, y1⟩ ⟨x2, y2⟩ mn mx) x1 = y1 ∧
    LineEq.evaluate (LineEq.create s ⟨x1, y1⟩ ⟨x2, y2⟩ mn mx) x2 = y2 := by
  have hne : x2 - x1 ≠ 0 := by
    intro h0
    exact hnv (by rw [h0]; norm_num [EPSILON])
  rw [create_nonvertical_eq s ⟨x1, y1⟩ ⟨x2, y2⟩ mn mx hnv]
  have hmul : (y2 - y1) / (x2 - x1) * (x2 - x1) = y2 - y1 := div_mul_cancel₀ _ hne
  have hr1 : LineEq.raw
      { slope := (y2 - y1) / (x2 - x1),
        y_intercept := y1 - (y2 - y1) / (x2 - x1) * x1,
        min_output := mn, max_output := mx, isVertical := false } x1 = y1 := by
    simp only [LineEq.raw]
    simp only [Bool.not_false, if_pos]
    ring
  have hr2 : LineEq.raw
      { slope := (y2 - y1) / (x2 - x1),
        y_intercept := y1 - (y2 - y1) / (x2 - x1) * x1,
        min_output := mn, max_output := mx, isVertical := false } x2 = y2 := by
    simp only [LineEq.raw]
    simp only [Bool.not_false, if_pos]
    linear_combination hmul
  constructor
  · rw [evaluate_eq_raw _ _ (by rw [hr1]; exact h1lo) (by rw [hr1]; exact h1hi), hr1]
  · rw [evaluate_eq_raw _ _ (by rw [hr2]; exact h2lo) (by rw [hr2]; exact h2hi), hr2]

/-- Witness for C5: the spec scenario `configure((0,0),(5,5),0,10)`; both
defining outputs `0` and `5` lie in `[0,10]` and are reproduced exactly. -/
theorem create_passthrough_witness :
    (¬ |(5 : ℚ) - 0| < EPSILON) ∧
    (LineEq.evaluate (LineEq.create LineEq.default ⟨0, 0⟩ ⟨5, 5⟩ 0 10) 0 = 0 ∧
     LineEq.evaluate (LineEq.create LineEq.default ⟨0, 0⟩ ⟨5, 5⟩ 0 10) 5 = 5) :=
  ⟨by norm_num [EPSILON],
   create_passthrough LineEq.default 0 0 5 5 0 10 (by norm_num [EPSILON])
     (by norm_num) (by norm_num) (by norm_num) (by norm_num)⟩

/-- Claim C6: for every configuration (inverted bounds included) and every
`x`, `evaluate` returns `minOutput` when `raw < minOutput`; otherwise
`maxOutput` when `raw > maxOutput` (the max check made on the original raw
value only when the min check failed); otherwise `raw` itself. -/
theorem evaluate_clamp_order (s : lineEq_t) (x : ℚ) :
    (LineEq.raw s x < s.min_output → LineEq.evaluate s x = s.min_output) ∧
    (¬ LineEq.raw s x < s.min_output → LineEq.raw s x > s.max_output →
      LineEq.evaluate s x = s.max_output) ∧
    (¬ LineEq.raw s x < s.min_output → ¬ LineEq.raw s x > s.max_output →
      LineEq.evaluate s x = LineEq.raw s x) := by
  simp only [LineEq.evaluate]
  exact ⟨fun h => by rw [if_pos h],
    fun h1 h2 => by rw [if_neg h1, if_pos h2],
    fun h1 h2 => by rw [if_neg h1, if_neg h2]⟩

/-- Witness for C6 on an inverted-bounds configuration (`minOutput = 10 >
maxOutput = 0` on the default state's zero line, raw value `0 < 10`): the
min branch is hit, so the result is the min bound. -/
theorem evaluate_clamp_order_witness :
    LineEq.raw { slope := 0, y_intercept := 0, min_output := 10,
                 max_output := 0, isVertical := false } 7 < (10 : ℚ) ∧
    LineEq.evaluate { slope := 0, y_intercept := 0, min_output := 10,
                      max_output := 0, isVertical := false } 7 = 10 :=
  ⟨by norm_num [LineEq.raw],
   (evaluate_clamp_order { slope := 0, y_intercept := 0, min_output := 10,
                           max_output := 0, isVertical := false } 7).1
     (by norm_num [LineEq.raw])⟩

/-- Claim C7: `create` fully overwrites the stored state — the state after a
call depends only on the call's arguments, so from any two prior states the
same arguments yield equal states and identical `evaluate` behavior. -/
theorem create_overwrites (s1 s2 : lineEq_t) (p1 p2 : point_t) (mn mx x : ℚ) :
    LineEq.create s1 p1 p2 mn mx = LineEq.create s2 p1 p2 mn mx ∧
    LineEq.evaluate (LineEq.create s1 p1 p2 mn mx) x
      = LineEq.evaluate (LineEq.create s2 p1 p2 mn mx) x := by
  have h : LineEq.create s1 p1 p2 mn mx = LineEq.create s2 p1 p2 mn mx := by
    by_cases hv : |p2.x - p1.x| < EPSILON
    · rw [create_vertical_eq s1 p1 p2 mn mx hv, create_vertical_eq s2 p1 p2 mn mx hv]
    · rw [create_nonvertical_eq s1 p1 p2 mn mx hv,
        create_nonvertical_eq s2 p1 p2 mn mx hv]
  exact ⟨h, by rw [h]⟩

/-- Claim C8: the default-constructed state has all numeric fields `0` and
the vertical flag cleared, and `evaluate` on it returns `0` for every input,
in particular at `42`. -/
theorem default_state_inert :
    LineEq.default.slope = 0 ∧ LineEq.default.y_intercept = 0 ∧
    LineEq.default.min_output = 0 ∧ LineEq.default.max_output = 0 ∧
    LineEq.default.isVertical = false ∧
    (∀ x : ℚ, LineEq.evaluate LineEq.default x = 0) ∧
    LineEq.evaluate LineEq.default 42 = 0 := by
  refine ⟨rfl, rfl, rfl, rfl, rfl, fun x => ?_, ?_⟩ <;>
    simp [LineEq.evaluate, LineEq.raw, LineEq.default]

/-- The configuration of the spec's concrete scenario 3:
`configure((4,-40), (20,85), -40, 85)` applied to a fresh object. -/
def scenario3 : lineEq_t := LineEq.create LineEq.default ⟨4, -40⟩ ⟨20, 85⟩ (-40) 85

/-- Claim C9: after `configure((4,-40), (20,85), -40, 85)` the slope is
`125/16` and the intercept `-71.25 = -285/4`; `evaluate(12) = 22.5 = 45/2`,
and at `x = 3` the raw value `-47.8125 = -765/16` is clamped to the min
bound, so `evaluate(3) = -40`. -/
theorem scenario3_evaluate :
    scenario3.slope = 125 / 16 ∧ scenario3.y_intercept = -285 / 4 ∧
    LineEq.evaluate scenario3 12 = 45 / 2 ∧
    LineEq.raw scenario3 3 = -765 / 16 ∧
    LineEq.evaluate scenario3 3 = -40 := by
  have h : scenario3 =
      { slope := 125 / 16, y_intercept := -285 / 4,
        min_output := -40, max_output := 85, isVertical := false } := by
    rw [scenario3, create_nonvertical_eq _ _ _ _ _ (by norm_num [EPSILON])]
    norm_num
  rw [h]
  refine ⟨rfl, rfl, ?_, ?_, ?_⟩ <;> norm_num [LineEq.evaluate, LineEq.raw]

/-- Claim C10: in every reachable state (the default-constructed state and
anything obtained by `create` calls), the vertical flag being set implies the
slope field holds the sentinel `0`. -/
theorem reachable_vertical_slope_zero (s : lineEq_t)
    (h : LineEq.Reachable s) (hv : s.isVertical = true) : s.slope = 0 := by
  revert hv
  induction h with
  | default =>
      intro hv
      simp [LineEq.default] at hv
  | create s0 p1 p2 mn mx hr ih =>
      intro hv
      by_cases hd : |p2.x - p1.x| < EPSILON
      · rw [create_vertical_eq s0 p1 p2 mn mx hd]
      · rw [create_nonvertical_eq s0 p1 p2 mn mx hd] at hv
        exact absurd hv (by simp)

/-- Witness for C10: the vertical configuration `create((5,1),(5,9),0,100)`
reached from the default state has slope `0`. -/
theorem reachable_vertical_slope_zero_witness :
    (LineEq.create LineEq.default ⟨5, 1⟩ ⟨5, 9⟩ 0 100).slope = 0 :=
  reachable_vertical_slope_zero _
    (LineEq.Reachable.create LineEq.default ⟨5, 1⟩ ⟨5, 9⟩ 0 100 LineEq.Reachable.default)
    (by rw [create_vertical_eq _ _ _ _ _ (by norm_num [EPSILON])])

end Tools
